import Mathlib

/-!
Verification development for the TrendRIT repository.

The repository ships a Next.js frontend (upload section, meme gallery,
trending section, processing modal) together with planning documents for a
Flask backend.  The frontend components are embedded shallowly below; the
backend pipeline components that the repository only documents are modelled
from the specification where a claim needs them.
-/

namespace TrendRIT

/-! ## ProcessingModal (src/frontend/components/processing-modal.tsx)

The modal keeps a `step` index and an `isComplete` flag and advances `step`
once per 1200 ms `setInterval` tick, capping at the last entry of `steps`. -/

def steps : List String :=
  ["Uploading meme...", "Analyzing segments...", "Generating depth maps...",
   "Creating 3D mesh...", "Processing complete!"]

structure ModalState where
  step : Nat
  isComplete : Bool
deriving DecidableEq

def modalInit : ModalState := { step := 0, isComplete := false }

/-- One firing of the modal's interval callback: if the step has reached the
last entry it marks completion and keeps the step, otherwise it increments. -/
def modalTick (s : ModalState) : ModalState :=
  if s.step ≥ steps.length - 1 then { s with isComplete := true }
  else { s with step := s.step + 1 }

/-- The displayed step index after `n` timer ticks from mount. -/
def stepAt (n : Nat) : Nat := (modalTick^[n] modalInit).step

theorem stepAt_succ (n : Nat) :
    stepAt (n + 1) = if 4 ≤ stepAt n then stepAt n else stepAt n + 1 := by
  have hlen : steps.length - 1 = 4 := rfl
  unfold stepAt
  rw [Function.iterate_succ_apply']
  unfold modalTick
  rw [hlen]
  simp only [ge_iff_le]
  split_ifs with h1
  · rfl
  · rfl

theorem stepAt_eq (n : Nat) : stepAt n = min n 4 := by
  induction n with
  | zero => rfl
  | succ n ih =>
    rw [stepAt_succ, ih]
    split_ifs with h <;> omega

/-- Claim C1: the modal's processing progression moves through the fixed stage
order monotonically: each tick leaves the stage index unchanged or advances it
by exactly one, and any stage strictly below the current one was itself the
current stage at some earlier tick (all earlier stages were entered, hence
completed, first). -/
theorem modal_stage_monotone_no_skip (n j : Nat) (h : j < stepAt n) :
    (stepAt (n + 1) = stepAt n ∨ stepAt (n + 1) = stepAt n + 1) ∧
      ∃ m, m < n ∧ stepAt m = j := by
  rw [stepAt_eq] at h
  constructor
  · by_cases h4 : 4 ≤ n
    · left
      rw [stepAt_eq, stepAt_eq]
      omega
    · right
      rw [stepAt_eq, stepAt_eq]
      omega
  · refine ⟨j, ?_, ?_⟩
    · omega
    · rw [stepAt_eq]
      omega

theorem modal_stage_monotone_no_skip_w :
    1 < stepAt 3 ∧
      ((stepAt 4 = stepAt 3 ∨ stepAt 4 = stepAt 3 + 1) ∧ ∃ m, m < 3 ∧ stepAt m = 1) :=
  ⟨by decide, modal_stage_monotone_no_skip 3 1 (by decide)⟩

/-- Claim C3 is refuted: the modal's displayed stage advances on a pure timer.
Formalising "the displayed status advances only when the corresponding stage's
completion event has occurred" over an arbitrary trace of completion events,
the trace with no events at all is a counterexample: after the first timer
tick the displayed step advances from 0 to 1 although no event occurred (the
interval callback consults no completion data at all). -/
theorem modal_advances_without_completion_event :
    ¬ ∀ (events : Nat → Bool) (n : Nat), stepAt (n + 1) ≠ stepAt n → events n = true := by
  intro h
  have h0 := h (fun _ => false) 0 (by decide)
  exact Bool.false_ne_true h0

/-- Claim C3 (amended): the displayed stage index after `n` timer ticks equals
`min n 4` — the modal advances exactly one step per 1200 ms tick until the
final stage, independent of any stage-completion event. -/
theorem modal_step_timer_driven (n : Nat) : stepAt n = min n (steps.length - 1) := by
  rw [stepAt_eq]
  rfl

/-! ## UploadSection (src/frontend/components/upload-section.tsx) and the
meme list kept by the page (src/frontend/app/page.tsx)

`handleFileUpload` checks the MIME type, and only for image files issues a
single `fetch` to the upload endpoint; on success it calls the page's
`handleUploadSuccess` which prepends a new meme with status "processing"; on
any failure it sets the error message; `isLoading` is reset in `finally`. -/

structure Meme where
  id : String
  image_url : String
  status : String
  created_at : String
deriving DecidableEq

structure UploadState where
  isLoading : Bool
  error : Option String
deriving DecidableEq

/-- Outcome of the single `fetch` to the upload endpoint: a 2xx response with
the parsed body, a non-ok response (the handler throws "Upload failed"), or a
rejected promise (network failure). -/
inductive UploadOutcome
  | ok (memeId : String) (imageUrl : String)
  | httpError
  | networkError
deriving DecidableEq

/-- Result of one invocation of `handleFileUpload`: the component state, the
page's meme list, and how many requests were issued to the upload endpoint. -/
structure UploadRun where
  state : UploadState
  memes : List Meme
  requests : Nat
deriving DecidableEq

/-- JavaScript's `String.prototype.startsWith`, embedded over the character
sequences of the two strings. -/
def strStartsWith (s p : String) : Bool := p.data.isPrefixOf s.data

/-- The page's `handleUploadSuccess`: prepend the new meme with status
"processing" and the current time as `created_at`. -/
def handleUploadSuccess (memeId imageUrl now : String) (memes : List Meme) : List Meme :=
  { id := memeId, image_url := imageUrl, status := "processing", created_at := now } :: memes

/-- `handleFileUpload` from the source: non-image MIME types are rejected
before any network activity; otherwise one request is made and the
try/catch/finally shape determines the final state. -/
def handleFileUpload (fileType now : String) (st : UploadState) (memes : List Meme)
    (outcome : UploadOutcome) : UploadRun :=
  if ¬ strStartsWith fileType "image/" then
    { state := { st with error := some "Please select an image file" },
      memes := memes, requests := 0 }
  else
    match outcome with
    | .ok memeId imageUrl =>
        { state := { isLoading := false, error := none },
          memes := handleUploadSuccess memeId imageUrl now memes, requests := 1 }
    | .httpError =>
        { state := { isLoading := false, error := some "Failed to upload. Please try again." },
          memes := memes, requests := 1 }
    | .networkError =>
        { state := { isLoading := false, error := some "Failed to upload. Please try again." },
          memes := memes, requests := 1 }

/-- Claim C9: a file whose MIME type does not start with "image/" is rejected
at the client boundary — the error message is set, no request is issued, and
the loading flag and the meme list are left unchanged. -/
theorem upload_rejects_non_image (fileType now : String) (st : UploadState)
    (memes : List Meme) (outcome : UploadOutcome)
    (h : strStartsWith fileType "image/" = false) :
    handleFileUpload fileType now st memes outcome =
      { state := { isLoading := st.isLoading, error := some "Please select an image file" },
        memes := memes, requests := 0 } := by
  simp [handleFileUpload, h]

theorem upload_rejects_non_image_w :
    (strStartsWith "text/plain" "image/" = false) ∧
      handleFileUpload "text/plain" "2026-10-11" { isLoading := false, error := none } []
          UploadOutcome.httpError =
        { state := { isLoading := false, error := some "Please select an image file" },
          memes := [], requests := 0 } :=
  ⟨by decide,
    upload_rejects_non_image "text/plain" "2026-10-11"
      { isLoading := false, error := none } [] UploadOutcome.httpError (by decide)⟩

/-! ## TrendingSection (src/unnamed/part_001)

On mount (and on each category change) an effect sets `isLoading` and fetches
the trending endpoint once; `setTrends(data.trends || [])` stores an array
even when the field is missing, the catch stores `[]`, and `finally` resets
`isLoading`. -/

structure Trend where
  title : String
  description : String
  reason : String
  scene_ideas : List String
deriving DecidableEq

/-- The component's trending state; `trends = none` would model a JS
`undefined` store — the component initialises it to `some []`. -/
structure TrendingState where
  trends : Option (List Trend)
  isLoading : Bool
deriving DecidableEq

/-- Outcome of the trending fetch: a parsed JSON body whose `trends` field may
be missing (`none`), or a thrown error (network failure or invalid JSON). -/
inductive TrendOutcome
  | ok (trendsField : Option (List Trend))
  | thrown
deriving DecidableEq

structure TrendingRun where
  state : TrendingState
  requests : Nat
deriving DecidableEq

/-- Initial state of the component at mount (`useState([])`, `useState(true)`). -/
def trendingInit : TrendingState := { trends := some [], isLoading := true }

/-- `fetchTrending` from the source: one request; on success the stored value
is `data.trends || []`, on a throw it is `[]`; `finally` clears the flag. -/
def fetchTrending (_st : TrendingState) (outcome : TrendOutcome) : TrendingRun :=
  match outcome with
  | .ok trendsField =>
      { state := { trends := some (trendsField.getD []), isLoading := false }, requests := 1 }
  | .thrown =>
      { state := { trends := some [], isLoading := false }, requests := 1 }

/-- Claim C10: whatever the outcome of the trending fetch — success, success
without a `trends` field, or a throw — the resulting trends state is always a
(possibly empty) array and the loading flag is reset to false. -/
theorem trending_fetch_total (st : TrendingState) (outcome : TrendOutcome) :
    (∃ l : List Trend, (fetchTrending st outcome).state.trends = some l) ∧
      (fetchTrending st outcome).state.isLoading = false := by
  cases outcome with
  | ok trendsField => exact ⟨⟨trendsField.getD [], rfl⟩, rfl⟩
  | thrown => exact ⟨⟨[], rfl⟩, rfl⟩

/-- Claim C5 is refuted: a failing call to the upload endpoint is attempted
exactly once and the failure surfaces immediately as the error message —
there is no local retry, so the claimed "retried with bounded exponential
backoff for a small fixed number of attempts" (at least two requests before
surfacing) is false at this concrete input. -/
theorem upload_failure_not_retried :
    (handleFileUpload "image/png" "2026-10-11" { isLoading := false, error := none } []
        UploadOutcome.networkError).requests = 1 ∧
      (handleFileUpload "image/png" "2026-10-11" { isLoading := false, error := none } []
          UploadOutcome.networkError).state.error =
        some "Failed to upload. Please try again." ∧
      ¬ 2 ≤ (handleFileUpload "image/png" "2026-10-11" { isLoading := false, error := none } []
          UploadOutcome.networkError).requests := by
  refine ⟨by decide, rfl, by decide⟩

/-- Claim C5 (amended): the frontend performs no automatic retry — each
invocation of the upload handler (for an image file) and of the trending
fetch issues exactly one request, and a failing upload surfaces its error
immediately after that single attempt. -/
theorem frontend_no_retry (fileType now : String) (st : UploadState) (memes : List Meme)
    (uout : UploadOutcome) (tst : TrendingState) (tout : TrendOutcome)
    (h : strStartsWith fileType "image/" = true) :
    (handleFileUpload fileType now st memes uout).requests = 1 ∧
      (fetchTrending tst tout).requests = 1 ∧
      ((uout = UploadOutcome.httpError ∨ uout = UploadOutcome.networkError) →
        (handleFileUpload fileType now st memes uout).state.error =
          some "Failed to upload. Please try again.") := by
  refine ⟨?_, ?_, ?_⟩
  · cases uout <;> simp [handleFileUpload, h]
  · cases tout <;> rfl
  · rintro (rfl | rfl) <;> simp [handleFileUpload, h]

theorem frontend_no_retry_w :
    (strStartsWith "image/png" "image/" = true) ∧
      ((handleFileUpload "image/png" "2026-10-11" { isLoading := false, error := none } []
          UploadOutcome.networkError).requests = 1 ∧
        (fetchTrending trendingInit TrendOutcome.thrown).requests = 1 ∧
        ((UploadOutcome.networkError = UploadOutcome.httpError ∨
            UploadOutcome.networkError = UploadOutcome.networkError) →
          (handleFileUpload "image/png" "2026-10-11" { isLoading := false, error := none } []
              UploadOutcome.networkError).state.error =
            some "Failed to upload. Please try again.")) :=
  ⟨by decide,
    frontend_no_retry "image/png" "2026-10-11" { isLoading := false, error := none } []
      UploadOutcome.networkError trendingInit TrendOutcome.thrown (by decide)⟩

/-! ## Home page (src/frontend/app/page.tsx)

The page starts with an empty meme list and renders `TrendingSection`
unconditionally, so the trending effect fires at page load, before any
project exists, let alone has completed its export stage. -/

structure PageState where
  memes : List Meme
  isProcessing : Bool
  currentMemeId : Option String
deriving DecidableEq

/-- The page's initial state (`useState([])`, `useState(false)`, `useState(null)`). -/
def pageInit : PageState :=
  { memes := [], isProcessing := false, currentMemeId := none }

/-- Number of memes of the page whose recorded status says the export stage
has completed. -/
def exportsCompleted (p : PageState) : Nat :=
  (p.memes.filter (fun m => m.status == "exported")).length

/-- The trending effect as it fires at component mount, from the initial
component state. -/
def trendingMount (outcome : TrendOutcome) : TrendingRun :=
  fetchTrending trendingInit outcome

/-- Claim C7 is refuted: at page load no export has completed (the meme list
is empty), yet the trending section's mount effect issues a trending request
— so "no request to the trend interface is issued before the export stage has
completed" is false. -/
theorem trending_requested_before_export :
    ¬ (exportsCompleted pageInit = 0 → (trendingMount TrendOutcome.thrown).requests = 0) := by
  intro h
  have h1 := h rfl
  simp [trendingMount, fetchTrending] at h1

/-- Claim C7 (amended): a trending request is issued as soon as the trending
section mounts — in particular before any project's export has completed —
and, for every trending outcome, the pipeline's displayed progression is the
same timer function, so no pipeline stage waits on the trending response. -/
theorem trending_mount_independent_of_export (outcome : TrendOutcome) (n : Nat) :
    (trendingMount outcome).requests = 1 ∧
      exportsCompleted pageInit = 0 ∧
      stepAt n = min n (steps.length - 1) := by
  refine ⟨?_, rfl, ?_⟩
  · cases outcome <;> rfl
  · rw [stepAt_eq]
    rfl

/-! ## PipelineOrchestrator

Modelled from the spec: the backend orchestrator (spec section 4.6) is not in
the repository — only the frontend callers and the planning documents are. -/

/-- Modelled from the spec: Project lifecycle status (spec section 3); the
backend sql models are absent from the repository. -/
inductive Status
  | uploaded | segmented | reconstructed | composed | exported | failed
deriving DecidableEq

/-- Position of a status in the pipeline order (failed is terminal-tagged,
outside the order). -/
def statusIdx : Status → Nat
  | .uploaded => 0
  | .segmented => 1
  | .reconstructed => 2
  | .composed => 3
  | .exported => 4
  | .failed => 5

/-- Modelled from the spec: the four pipeline stages whose completion triggers
the corresponding transition (spec section 4.6). -/
inductive Stage
  | segmentation | reconstruction | composition | exportStage
deriving DecidableEq

/-- The status a project holds once the given stage has completed. -/
def stageResultStatus : Stage → Status
  | .segmentation => .segmented
  | .reconstruction => .reconstructed
  | .composition => .composed
  | .exportStage => .exported

/-- Modelled from the spec: per-project orchestrator state — lifecycle status,
the count of MeshAsset versions ever produced (the MeshAsset store is
append-only, spec section 5), and the recorded result of each stage. -/
structure ProjectState where
  status : Status
  meshVersions : Nat
  results : Stage → Option Nat

/-- A stage counts as done when the project's status has reached (or passed)
the status that stage produces. -/
def stageDone (p : ProjectState) (s : Stage) : Bool :=
  decide (statusIdx (stageResultStatus s) ≤ statusIdx p.status ∧ p.status ≠ Status.failed)

/-- Modelled from the spec: invoking a stage (spec section 4.6) — re-invoking
an already-completed stage is a no-op returning the existing result; otherwise
the stage runs, records a fresh result, moves the status, and (for
reconstruction) appends a new MeshAsset version. -/
def invokeStage (p : ProjectState) (s : Stage) (freshResult : Nat) :
    ProjectState × Option Nat :=
  if stageDone p s then (p, p.results s)
  else
    ({ status := stageResultStatus s,
       meshVersions := p.meshVersions + (if s = Stage.reconstruction then 1 else 0),
       results := fun t => if t = s then some freshResult else p.results t },
     some freshResult)

/-- Claim C2: re-invoking a stage of an already-advanced project is a no-op —
the project state (in particular the MeshAsset version count) is unchanged and
the previously recorded result is returned, with no new computation. -/
theorem stage_reinvoke_idempotent (p : ProjectState) (s : Stage) (freshResult : Nat)
    (h : stageDone p s = true) :
    invokeStage p s freshResult = (p, p.results s) := by
  simp [invokeStage, h]

/-- A concrete project that has completed reconstruction, with one MeshAsset
version and a recorded reconstruction result. -/
def projAfterRecon : ProjectState :=
  { status := .reconstructed, meshVersions := 1,
    results := fun t => if t = Stage.reconstruction then some 7 else none }

theorem stage_reinvoke_idempotent_w :
    stageDone projAfterRecon Stage.reconstruction = true ∧
      invokeStage projAfterRecon Stage.reconstruction 99 = (projAfterRecon, some 7) :=
  ⟨by decide, by
    have h := stage_reinvoke_idempotent projAfterRecon Stage.reconstruction 99 (by decide)
    simpa [projAfterRecon] using h⟩

/-! ## Renderer and FrameEncoder

Modelled from the spec: the backend rendering and encoding services (spec
sections 4.4 and 4.5) are not in the repository. -/

/-- Modelled from the spec: one camera pose sample of an orbit trajectory
(fixed radius and height around a pivot, spec glossary). -/
structure CameraPose where
  angle : ℚ
  radius : ℚ
  height : ℚ
deriving DecidableEq

/-- Modelled from the spec: an N-sample 360-degree orbit — N evenly spaced
angle samples at fixed radius and height (spec section 4.4). -/
def orbitTrajectory (n : Nat) (radius height : ℚ) : List CameraPose :=
  (List.range n).map
    (fun i : Nat => { angle := 360 * (i : ℚ) / (n : ℚ), radius := radius, height := height })

/-- Modelled from the spec: a scene resolved to world-space meshes, abstracted
to the references of the meshes it renders. -/
structure SceneDesc where
  meshRefs : List Nat
deriving DecidableEq

/-- Modelled from the spec: one raster frame, abstracted as the scene projected
through one camera pose (spec section 4.4). -/
structure Frame where
  scene : SceneDesc
  pose : CameraPose
deriving DecidableEq

/-- Rendering of a single trajectory sample. -/
def renderFrame (sc : SceneDesc) (pose : CameraPose) : Frame :=
  { scene := sc, pose := pose }

/-- Modelled from the spec: the Renderer produces one frame per trajectory
sample, in trajectory order (spec section 4.4). -/
def render (sc : SceneDesc) (traj : List CameraPose) : List Frame :=
  traj.map (renderFrame sc)

/-- Modelled from the spec: the encoded video artifact with its declared
timing metadata (spec sections 4.5 and 6). -/
structure VideoArtifact where
  frames : List Frame
  fps : ℚ
  duration : ℚ
deriving DecidableEq

/-- Modelled from the spec: the FrameEncoder for a video target — frames are
encoded at the requested rate and the declared duration is the frame count
divided by the rate (spec section 4.5). -/
def encodeVideo (frames : List Frame) (fps : ℚ) : VideoArtifact :=
  { frames := frames, fps := fps, duration := frames.length / fps }

/-- Modelled from the spec: the deterministic frame-to-timestamp mapping
`timestamp_i = i / fps` (spec section 4.5). -/
def frameTimestamp (i : Nat) (fps : ℚ) : ℚ := i / fps

/-- Claim C4: on an N-sample orbit trajectory the Renderer produces exactly N
frames, frame i being the projection of trajectory sample i (trajectory
order), and encoding those N frames at rate F yields an artifact whose
declared duration is N / F, with frame i mapped to timestamp i / F. -/
theorem render_encode_contract (sc : SceneDesc) (n : Nat) (radius height fps : ℚ) :
    (render sc (orbitTrajectory n radius height)).length = n ∧
      (∀ i : Nat, (render sc (orbitTrajectory n radius height)).get? i =
        ((orbitTrajectory n radius height).get? i).map (renderFrame sc)) ∧
      (encodeVideo (render sc (orbitTrajectory n radius height)) fps).duration = n / fps ∧
      (∀ i : Nat, frameTimestamp i fps = i / fps) := by
  refine ⟨?_, ?_, ?_, fun i => rfl⟩
  · simp only [render, orbitTrajectory, List.length_map, List.length_range]
  · intro i
    simp only [render, List.get?_map]
  · simp only [encodeVideo, render, orbitTrajectory, List.length_map, List.length_range]

/-! ## MeshBuilder

Modelled from the spec: the backend reconstruction service (spec section 4.1)
is not in the repository.  Depth maps and masks are functions over pixel
coordinates within a width x height raster; depth values are integers (the
spec's float raster is modelled exactly, floating point carries no role in the
counting property). -/

/-- Sum of `f i` for `i` below `n`. -/
def sumBelow (f : Nat → Nat) : Nat → Nat
  | 0 => 0
  | n + 1 => sumBelow f n + f n

theorem sumBelow_congr (f g : Nat → Nat) (n : Nat) (h : ∀ i, i < n → f i = g i) :
    sumBelow f n = sumBelow g n := by
  induction n with
  | zero => rfl
  | succ n ih =>
    unfold sumBelow
    rw [ih (fun i hi => h i (Nat.lt_succ_of_lt hi)), h n (Nat.lt_succ_self n)]

/-- Modelled from the spec: pinhole back-projection of a pixel with its depth
(spec section 4.1): x = (u - cx) * d / fx, y = (v - cy) * d / fy, z = d. -/
def backProject (fx fy cx cy : ℚ) (u v : Nat) (d : ℚ) : ℚ × ℚ × ℚ :=
  (((u : ℚ) - cx) * d / fx, ((v : ℚ) - cy) * d / fy, d)

/-- Absolute depth difference between two pixels. -/
def depthJump (depth : Nat → Nat → Int) (u v u2 v2 : Nat) : Nat :=
  (depth u2 v2 - depth u v).natAbs

/-- Modelled from the spec: a 2x2 pixel quad at (u, v) contributes its two
triangles only when all four participating pixels are masked and no
neighbouring pair inside the quad jumps in depth by more than the
discontinuity threshold (spec section 4.1). -/
def quadKept (depth : Nat → Nat → Int) (mask : Nat → Nat → Bool) (thr : Nat)
    (u v : Nat) : Bool :=
  mask u v && mask (u + 1) v && mask u (v + 1) && mask (u + 1) (v + 1) &&
    decide (depthJump depth u v (u + 1) v ≤ thr) &&
    decide (depthJump depth u v u (v + 1) ≤ thr) &&
    decide (depthJump depth (u + 1) v (u + 1) (v + 1) ≤ thr) &&
    decide (depthJump depth u (v + 1) (u + 1) (v + 1) ≤ thr)

/-- Modelled from the spec: triangle count of the produced mesh — two
triangles per surviving quad over the (W-1) x (H-1) quad grid. -/
def meshTriCount (w h : Nat) (depth : Nat → Nat → Int) (mask : Nat → Nat → Bool)
    (thr : Nat) : Nat :=
  sumBelow (fun v => sumBelow (fun u => if quadKept depth mask thr u v then 2 else 0) (w - 1))
    (h - 1)

/-- Modelled from the spec: vertex count of the produced mesh — one
back-projected vertex per masked pixel. -/
def meshVertexCount (w h : Nat) (mask : Nat → Nat → Bool) : Nat :=
  sumBelow (fun v => sumBelow (fun u => if mask u v then 1 else 0) w) h

/-- Claim C8: MeshBuilder is deterministic on mesh size — for any two
depth/mask inputs of identical content over the raster, the produced meshes
have identical triangle counts and identical vertex counts. -/
theorem meshBuilder_count_deterministic (w h thr : Nat)
    (d1 d2 : Nat → Nat → Int) (m1 m2 : Nat → Nat → Bool)
    (hd : ∀ u v, u < w → v < h → d1 u v = d2 u v)
    (hm : ∀ u v, u < w → v < h → m1 u v = m2 u v) :
    meshTriCount w h d1 m1 thr = meshTriCount w h d2 m2 thr ∧
      meshVertexCount w h m1 = meshVertexCount w h m2 := by
  constructor
  · unfold meshTriCount
    apply sumBelow_congr
    intro v hv
    apply sumBelow_congr
    intro u hu
    have hd2 : ∀ u2 v2, u2 ≤ u + 1 → v2 ≤ v + 1 → d1 u2 v2 = d2 u2 v2 := by
      intro u2 v2 hu2 hv2
      exact hd u2 v2 (by omega) (by omega)
    have hm2 : ∀ u2 v2, u2 ≤ u + 1 → v2 ≤ v + 1 → m1 u2 v2 = m2 u2 v2 := by
      intro u2 v2 hu2 hv2
      exact hm u2 v2 (by omega) (by omega)
    unfold quadKept depthJump
    rw [hm2 u v (by omega) (by omega), hm2 (u + 1) v (by omega) (by omega),
      hm2 u (v + 1) (by omega) (by omega), hm2 (u + 1) (v + 1) (by omega) (by omega),
      hd2 u v (by omega) (by omega), hd2 (u + 1) v (by omega) (by omega),
      hd2 u (v + 1) (by omega) (by omega), hd2 (u + 1) (v + 1) (by omega) (by omega)]
  · unfold meshVertexCount
    apply sumBelow_congr
    intro v hv
    apply sumBelow_congr
    intro u hu
    rw [hm u v hu hv]

set_option maxRecDepth 100000 in
/-- Scenario from the spec (section 8): a 64 x 64 uniform plane at depth 1
with a full mask yields exactly 2 * 63 * 63 triangles — no discontinuity
filtering triggers on a uniform plane. -/
theorem meshTriCount_uniform_plane :
    meshTriCount 64 64 (fun _ _ => 1) (fun _ _ => true) 0 = 2 * 63 * 63 := by
  decide

theorem meshBuilder_count_deterministic_w :
    (∀ u v, u < 64 → v < 64 → (fun _ _ => (1 : Int)) u v =
        (fun u2 _ => if u2 < 100 then (1 : Int) else 5) u v) ∧
      (∀ u v, u < 64 → v < 64 → (fun _ _ => true) u v =
        (fun _ v2 => decide (v2 < 200)) u v) ∧
      (meshTriCount 64 64 (fun _ _ => 1) (fun _ _ => true) 0 =
          meshTriCount 64 64 (fun u2 _ => if u2 < 100 then 1 else 5)
            (fun _ v2 => decide (v2 < 200)) 0 ∧
        meshVertexCount 64 64 (fun _ _ => true) =
          meshVertexCount 64 64 (fun _ v2 => decide (v2 < 200))) := by
  refine ⟨?_, ?_, ?_⟩
  · intro u v hu hv
    simp only
    rw [if_pos (by omega)]
  · intro u v hu hv
    simp only
    rw [decide_eq_true (by omega)]
  · exact meshBuilder_count_deterministic 64 64 0 (fun _ _ => 1)
      (fun u2 _ => if u2 < 100 then 1 else 5) (fun _ _ => true) (fun _ v2 => decide (v2 < 200))
      (fun u v hu hv => by simp only; rw [if_pos (by omega)])
      (fun u v hu hv => by simp only; rw [decide_eq_true (by omega)])

/-! ## SceneGraph

Modelled from the spec: the scene graph (spec sections 3, 4.2 and 9) is not
in the repository.  Following section 9 it is represented as an object pool
with parent indices; `attach` validates ancestry at attach time and fails
with `CycleError` when the proposed parent is a descendant of the object. -/

/-- Modelled from the spec: object pool with parent indices (spec section 9).
`parent n = some p` places object `n` under object `p`. -/
structure SceneGraph where
  size : Nat
  parent : Nat → Option Nat

/-- Modelled from the spec: the scene-graph error taxonomy entry for an
invalid attach (spec section 7). -/
inductive SceneGraphError
  | cycleError
deriving DecidableEq

/-- The node reached from `n` after following `k` parent links, if the chain
is that long. -/
def chainAfter (g : SceneGraph) : Nat → Nat → Option Nat
  | n, 0 => some n
  | n, k + 1 =>
    match g.parent n with
    | none => none
    | some p => chainAfter g p k

/-- The ancestor chain of `n` (parent, grandparent, ...), followed for at most
`fuel` parent links — the attach-time ancestry validation walks this list with
`fuel = g.size`. -/
def ancestors (g : SceneGraph) : Nat → Nat → List Nat
  | _, 0 => []
  | n, fuel + 1 =>
    match g.parent n with
    | none => []
    | some p => p :: ancestors g p fuel

/-- `m` is a proper ancestor of `n`: some positive number of parent links
leads from `n` to `m`.  Equivalently, `n` is a descendant of `m`. -/
def Reaches (g : SceneGraph) (n m : Nat) : Prop :=
  ∃ k, 0 < k ∧ chainAfter g n k = some m

/-- The scene graph is acyclic: no object is its own proper ancestor. -/
def Acyclic (g : SceneGraph) : Prop := ∀ n, ¬ Reaches g n n

/-- Parent links live inside the object pool. -/
def Bounded (g : SceneGraph) : Prop :=
  ∀ n p, g.parent n = some p → n < g.size ∧ p < g.size

/-- Modelled from the spec: `attach(object, parent)` — fails with `CycleError`
if the parent is the object or a descendant of it (ancestry validated at
attach time, spec sections 4.2 and 9), otherwise re-points the object's parent
link. -/
def attach (g : SceneGraph) (object par : Nat) : Except SceneGraphError SceneGraph :=
  if object = par ∨ object ∈ ancestors g par g.size then
    .error .cycleError
  else
    .ok { size := g.size, parent := fun n => if n = object then some par else g.parent n }

/-- The graph after an attach operation: the updated graph on success, the
untouched graph on failure. -/
def attachAfter (g : SceneGraph) (object par : Nat) : SceneGraph :=
  match attach g object par with
  | .ok g2 => g2
  | .error _ => g

theorem chainAfter_add (g : SceneGraph) (j k : Nat) :
    ∀ n, chainAfter g n (j + k) = (chainAfter g n j).bind (fun m => chainAfter g m k) := by
  induction j with
  | zero =>
    intro n
    rw [Nat.zero_add]
    rfl
  | succ j ih =>
    intro n
    have h1 : j + 1 + k = (j + k) + 1 := by omega
    rw [h1]
    cases hp : g.parent n with
    | none => simp [chainAfter, hp]
    | some p => simp [chainAfter, hp, ih p]

theorem chainAfter_isSome_of_le (g : SceneGraph) (n k i m : Nat)
    (h : chainAfter g n k = some m) (hik : i ≤ k) :
    ∃ x, chainAfter g n i = some x := by
  have hk : k = i + (k - i) := by omega
  rw [hk, chainAfter_add] at h
  cases hx : chainAfter g n i with
  | none => rw [hx] at h; exact absurd h (by simp)
  | some x => exact ⟨x, rfl⟩

theorem reaches_self_of_repeat (g : SceneGraph) (n i j x : Nat)
    (hi : chainAfter g n i = some x) (hj : chainAfter g n j = some x) (hij : i < j) :
    Reaches g x x := by
  have hk : j = i + (j - i) := by omega
  rw [hk, chainAfter_add, hi] at hj
  exact ⟨j - i, by omega, hj⟩

theorem chainAfter_lt_size (g : SceneGraph) (hb : Bounded g) :
    ∀ k n x, chainAfter g n (k + 1) = some x → x < g.size := by
  intro k
  induction k with
  | zero =>
    intro n x h
    cases hp : g.parent n with
    | none => simp [chainAfter, hp] at h
    | some p =>
      simp [chainAfter, hp] at h
      exact h ▸ (hb n p hp).2
  | succ k ih =>
    intro n x h
    cases hp : g.parent n with
    | none => simp [chainAfter, hp] at h
    | some p =>
      simp [chainAfter, hp] at h
      exact ih p x h

theorem chain_length_le_size (g : SceneGraph) (hb : Bounded g) (ha : Acyclic g)
    (n k m : Nat) (h : chainAfter g n k = some m) : k ≤ g.size := by
  by_contra hgt
  have hsome : ∀ i, i ≤ g.size → ∃ x, chainAfter g n (i + 1) = some x := by
    intro i hi
    exact chainAfter_isSome_of_le g n k (i + 1) m h (by omega)
  have hmaps : ∀ i ∈ Finset.range (g.size + 1),
      (chainAfter g n (i + 1)).getD 0 ∈ Finset.range g.size := by
    intro i hi
    rw [Finset.mem_range] at hi
    obtain ⟨x, hx⟩ := hsome i (by omega)
    rw [hx]
    simpa using chainAfter_lt_size g hb i n x hx
  have hcard : (Finset.range g.size).card < (Finset.range (g.size + 1)).card := by
    simp
  obtain ⟨i, hi, j, hj, hne, heq⟩ :=
    Finset.exists_ne_map_eq_of_card_lt_of_maps_to hcard hmaps
  rw [Finset.mem_range] at hi hj
  obtain ⟨x, hx⟩ := hsome i (by omega)
  obtain ⟨y, hy⟩ := hsome j (by omega)
  rw [hx, hy] at heq
  simp at heq
  rcases Nat.lt_or_ge i j with hij | hij
  · exact ha x (reaches_self_of_repeat g n (i + 1) (j + 1) x hx (heq ▸ hy) (by omega))
  · have hij2 : j < i := by omega
    exact ha y (reaches_self_of_repeat g n (j + 1) (i + 1) y hy (heq ▸ hx) (by omega))

theorem mem_ancestors_of_chainAfter (g : SceneGraph) :
    ∀ fuel n k m, 1 ≤ k → k ≤ fuel → chainAfter g n k = some m →
      m ∈ ancestors g n fuel := by
  intro fuel
  induction fuel with
  | zero => intro n k m h1 h2 _; omega
  | succ fuel ih =>
    intro n k m h1 h2 h
    obtain ⟨k', rfl⟩ : ∃ k', k = k' + 1 := ⟨k - 1, by omega⟩
    cases hp : g.parent n with
    | none => simp [chainAfter, hp] at h
    | some p =>
      simp only [chainAfter, hp] at h
      simp only [ancestors, hp]
      rcases Nat.eq_zero_or_pos k' with rfl | hk'
      · have hm : p = m := by simpa [chainAfter] using h
        subst hm
        exact List.Mem.head _
      · right
        exact ih p k' m (by omega) (by omega) h

/-- Claim C6: for every graph shape, an `attach(object, parent)` whose
proposed parent is the object itself or one of its descendants fails with
`CycleError`, the graph is left untouched, and so it remains acyclic. -/
theorem attach_rejects_descendant (g : SceneGraph) (object par : Nat)
    (hb : Bounded g) (ha : Acyclic g)
    (hdesc : par = object ∨ Reaches g par object) :
    attach g object par = Except.error SceneGraphError.cycleError ∧
      attachAfter g object par = g ∧ Acyclic (attachAfter g object par) := by
  have hcond : object = par ∨ object ∈ ancestors g par g.size := by
    rcases hdesc with rfl | ⟨k, hk, hchain⟩
    · exact Or.inl rfl
    · refine Or.inr ?_
      have hle := chain_length_le_size g hb ha par k object hchain
      exact mem_ancestors_of_chainAfter g g.size par k object (by omega) hle hchain
  have herr : attach g object par = Except.error SceneGraphError.cycleError := by
    unfold attach
    rw [if_pos hcond]
  have hafter : attachAfter g object par = g := by
    unfold attachAfter
    rw [herr]
  refine ⟨herr, hafter, ?_⟩
  rw [hafter]
  exact ha

/-- A concrete two-object pool in which object 1 sits under object 0. -/
def gw : SceneGraph := { size := 2, parent := fun n => if n = 1 then some 0 else none }

theorem gw_chain (k : Nat) :
    ∀ n m, chainAfter gw n (k + 1) = some m → n = 1 ∧ m = 0 := by
  induction k with
  | zero =>
    intro n m h
    by_cases hn : n = 1
    · subst hn
      simp [chainAfter, gw] at h
      exact ⟨rfl, h.symm⟩
    · simp [chainAfter, gw, hn] at h
  | succ k ih =>
    intro n m h
    by_cases hn : n = 1
    · subst hn
      simp [chainAfter, gw] at h
    · simp [chainAfter, gw, hn] at h

theorem gw_bounded : Bounded gw := by
  intro n p h
  by_cases hn : n = 1
  · subst hn
    simp [gw] at h ⊢
    omega
  · simp [gw, hn] at h

theorem gw_acyclic : Acyclic gw := by
  intro n ⟨k, hk, hchain⟩
  obtain ⟨k', rfl⟩ : ∃ k', k = k' + 1 := ⟨k - 1, by omega⟩
  have := gw_chain k' n n hchain
  omega

theorem attach_rejects_descendant_w :
    Bounded gw ∧ Acyclic gw ∧ ((1 : Nat) = 0 ∨ Reaches gw 1 0) ∧
      (attach gw 0 1 = Except.error SceneGraphError.cycleError ∧
        attachAfter gw 0 1 = gw ∧ Acyclic (attachAfter gw 0 1)) := by
  have hr : Reaches gw 1 0 := ⟨1, Nat.one_pos, by simp [chainAfter, gw]⟩
  exact ⟨gw_bounded, gw_acyclic, Or.inr hr,
    attach_rejects_descendant gw 0 1 gw_bounded gw_acyclic (Or.inr hr)⟩

end TrendRIT
